import Mathlib

/-!
Verification development for the chat backend (fileDB-based DM server).

The definitions below are a shallow embedding of the JavaScript source:
`src/app.js` (main server), `src/utils/fileDB.js`, `src/utils/validation.js`,
and the server variants in `src/unnamed/part_000`, `part_001`, `part_008`.

JSON objects with string keys are modelled as insertion-ordered association
lists (`objGet` / `objSet` / `objDelete` mirror property read, property
write, and `delete`/`Map.delete`).  JS string falsiness for message fields
is modelled on `Option String` (`none` = undefined/null, `some ""` = empty
string; both are falsy).  All socket handlers in the source are synchronous
(readFileSync / writeFileSync, no `await`), so each handler runs to
completion on the Node event loop and is embedded as an atomic state
transformer.
-/

namespace Chatt

/-- One stored chat message (the object literal built in the `dm:message`
handlers).  `fromId` is the JS field `from` (a Lean keyword). -/
structure Message where
  id : String
  fromId : String
  toId : String
  text : String
  media : Option String
  timestamp : Nat
  readBy : List String
  deletedFor : List String
  deriving Repr, DecidableEq

/-- JS-object property read: first binding wins (keys are unique by
construction of `objSet`). -/
def objGet {α : Type} (st : List (String × α)) (k : String) : Option α :=
  (st.find? (fun p => p.1 == k)).map (·.2)

/-- JS-object property write: update in place if the key exists, else append
(JS string-keyed properties keep insertion order). -/
def objSet {α : Type} : List (String × α) → String → α → List (String × α)
  | [], k, v => [(k, v)]
  | (k', v') :: rest, k, v =>
      if k' == k then (k, v) :: rest else (k', v') :: objSet rest k v

/-- JS `delete obj[k]` / `Map.delete`: removes the binding. -/
def objDelete {α : Type} (st : List (String × α)) (k : String) : List (String × α) :=
  st.filter (fun p => !(p.1 == k))

/-- The `messages.json` store: room id → ordered message list. -/
abbrev Store : Type := List (String × List Message)

/-- JS string truthiness for optional payload fields: undefined/null and
the empty string are falsy. -/
def jsTruthy : Option String → Bool
  | none => false
  | some s => s != ""

/-- `text || ''` from the message constructor. -/
def jsOrEmpty : Option String → String
  | none => ""
  | some s => s

/-- `media || null` from the message constructor. -/
def jsOrNull (o : Option String) : Option String :=
  if jsTruthy o then o else none

/-- Lexicographic comparison of char lists by code point — the comparison
JS's default `Array.prototype.sort` applies to strings. -/
def lexLe : List Char → List Char → Bool
  | [], _ => true
  | _ :: _, [] => false
  | a :: as, b :: bs =>
      if a.toNat < b.toNat then true
      else if b.toNat < a.toNat then false
      else lexLe as bs

/-- Strict lexicographic comparison of char lists (JS `s1 < s2` on
strings). -/
def lexLt : List Char → List Char → Bool
  | [], [] => false
  | [], _ :: _ => true
  | _ :: _, [] => false
  | a :: as, b :: bs =>
      if a.toNat < b.toNat then true
      else if b.toNat < a.toNat then false
      else lexLt as bs

/-- JS string `<=` (the order used by `[u1, u2].sort()`). -/
def strLe (s t : String) : Bool := lexLe s.data t.data

/-- JS string `<`. -/
def strLt (s t : String) : Bool := lexLt s.data t.data

/-- `getRoomId` from `src/app.js` lines 206-209: sort the two usernames
(JS default sort = lexicographic) and join with `::` under the `dm:`
prefix. -/
def getRoomId (user1 user2 : String) : String :=
  if strLe user1 user2 then "dm:" ++ user1 ++ "::" ++ user2
  else "dm:" ++ user2 ++ "::" ++ user1

/-- Payload of a `dm:message` event (`{to, text, media}`).  `to` is a plain
string; an absent recipient is modelled by `""` (both are falsy in the
guard). -/
structure SendInput where
  toId : String
  text : Option String
  media : Option String
  deriving Repr, DecidableEq

/-- The validation guard of the `dm:message` handler:
`if (!to || (!text && !media))` — the send is accepted iff this is false. -/
def sendOk (inp : SendInput) : Bool :=
  inp.toId != "" && (jsTruthy inp.text || jsTruthy inp.media)

/-- The message object literal built by the `dm:message` handler in
`src/app.js` lines 280-289.  `now` is `Date.now()` and `suffix` the random
base-36 tail, so `id = Date.now().toString() + suffix`. -/
def mkMessage (username : String) (inp : SendInput) (now : Nat) (suffix : String) : Message :=
  { id := toString now ++ suffix
    fromId := username
    toId := inp.toId
    text := jsOrEmpty inp.text
    media := jsOrNull inp.media
    timestamp := now
    readBy := [username]
    deletedFor := [] }

/-- The `dm:message` handler of `src/app.js` lines 264-318 as a state
transformer on the messages store.  Returns the new store and the stored
message on success (`callback({success:true, message})`), or `none` for the
`'Invalid message data'` rejection.  The handler body is synchronous, so it
is one atomic event-loop step. -/
def sendHandler (username : String) (inp : SendInput) (now : Nat) (suffix : String)
    (st : Store) : Store × Option Message :=
  if !(sendOk inp) then (st, none)
  else
    let roomId := getRoomId username inp.toId
    let old := (objGet st roomId).getD []
    let msg := mkMessage username inp now suffix
    (objSet st roomId (old ++ [msg]), some msg)

/-- The per-viewer filter used by the `dm:join` handler (`src/app.js` lines
241-244): drop messages whose `deletedFor` contains the viewer. -/
def joinFilter (username : String) (msgs : List Message) : List Message :=
  msgs.filter (fun m => !(m.deletedFor.contains username))

/-- The body of the `dm:delete` handler's `forEach` loop (`src/app.js` lines
334-350), including the `Array.prototype.splice` interaction with `forEach`:
after `splice(index, 1)` the element shifted into `index` is not visited
(iteration resumes at `index + 1`), and it stays in the array unchanged.
Returns the resulting list and the `messageFound` flag. -/
def deleteScan (username messageId : String) (forEveryone : Bool) :
    List Message → List Message × Bool
  | [] => ([], false)
  | msg :: rest =>
    if msg.id == messageId then
      if forEveryone && msg.fromId == username then
        match rest with
        | [] => ([], true)
        | skipped :: rest2 =>
          (skipped :: (deleteScan username messageId forEveryone rest2).1, true)
      else
        let msg' := if msg.deletedFor.contains username then msg
                    else { msg with deletedFor := msg.deletedFor ++ [username] }
        (msg' :: (deleteScan username messageId forEveryone rest).1, true)
    else
      let r := deleteScan username messageId forEveryone rest
      (msg :: r.1, r.2)

/-- Outcome of the `dm:delete` handler callback. -/
inductive DeleteOutcome : Type
  | roomMissing
  | messageMissing
  | deleted
  deriving Repr, DecidableEq

/-- The `dm:delete` handler of `src/app.js` lines 321-378.  The room check
`if (!messages[roomId])` fails only for an absent key (an existing empty
array is truthy); the store is written back only when `messageFound`. -/
def deleteHandler (username roomId messageId : String) (forEveryone : Bool)
    (st : Store) : Store × DeleteOutcome :=
  match objGet st roomId with
  | none => (st, DeleteOutcome.roomMissing)
  | some msgs =>
    let r := deleteScan username messageId forEveryone msgs
    if r.2 then (objSet st roomId r.1, DeleteOutcome.deleted)
    else (st, DeleteOutcome.messageMissing)

/-- The body of the `message:read` handler (`src/unnamed/part_001` lines
455-479, identically `src/unnamed/part_008` lines 554-577): `find` the first
message with the given id; if the reader is not in its `readBy`, push the
reader.  Returns the updated list and whether a change (and hence the
`message:read` broadcast) happened. -/
def markReadList (username messageId : String) : List Message → List Message × Bool
  | [] => ([], false)
  | m :: rest =>
    if m.id == messageId then
      if m.readBy.contains username then (m :: rest, false)
      else ({ m with readBy := m.readBy ++ [username] } :: rest, true)
    else
      let r := markReadList username messageId rest
      (m :: r.1, r.2)

/-- The `message:read` handler as a store transformer; the returned Bool is
whether the `message:read` read-receipt event was emitted (the file is
written back exactly in that case). -/
def markReadHandler (username messageId roomId : String) (st : Store) : Store × Bool :=
  match objGet st roomId with
  | none => (st, false)
  | some msgs =>
    let r := markReadList username messageId msgs
    if r.2 then (objSet st roomId r.1, true) else (st, false)

/-- JS `String.prototype.includes` on char lists: does `sub` occur as a
contiguous subsequence? -/
def listContainsSeq (sub : List Char) : List Char → Bool
  | [] => sub.isEmpty
  | c :: rest => sub.isPrefixOf (c :: rest) || listContainsSeq sub rest

/-- `roomId.includes(username)` from the chat-list handlers. -/
def jsIncludes (s sub : String) : Bool :=
  listContainsSeq sub.data s.data

/-- JS `String.prototype.replace` with a string pattern: replace the first
occurrence only. -/
def replaceFirstAux (pat repl : List Char) : List Char → List Char
  | [] => []
  | c :: rest =>
      if pat.isPrefixOf (c :: rest) then repl ++ (c :: rest).drop pat.length
      else c :: replaceFirstAux pat repl rest

/-- `s.replace(pat, repl)` (first occurrence). -/
def jsReplaceFirst (pat repl s : String) : String :=
  ⟨replaceFirstAux pat.data repl.data s.data⟩

/-- JS `String.prototype.split` with a non-empty string separator:
left-to-right, non-overlapping.  `skip` counts separator characters already
consumed after a match (structural recursion on the char list). -/
def jsSplitAux (sep : List Char) : Nat → List Char → List Char → List (List Char)
  | _, cur, [] => [cur.reverse]
  | n + 1, cur, _ :: rest => jsSplitAux sep n cur rest
  | 0, cur, c :: rest =>
      if sep.isPrefixOf (c :: rest) then
        cur.reverse :: jsSplitAux sep (sep.length - 1) [] rest
      else jsSplitAux sep 0 (c :: cur) rest

/-- `s.split(sep)` for a non-empty string separator. -/
def jsSplit (sep s : String) : List String :=
  (jsSplitAux sep.data 0 [] s.data).map (fun l => ⟨l⟩)

/-- `roomId.replace('dm:', '').split('::')` — the participant extraction of
the chat-list handlers. -/
def roomParticipants (roomId : String) : List String :=
  jsSplit "::" (jsReplaceFirst "dm:" "" roomId)

/-- One entry of the object returned by `GET /chats` in `src/app.js`
(lines 170-174): note `unread` is the literal `0` from the source. -/
structure ChatEntry where
  lastMessage : String
  timestamp : Nat
  unread : Nat
  deriving Repr, DecidableEq

/-- One iteration of the `Object.keys(messages).forEach` loop in the
`GET /chats` handler of `src/app.js` lines 159-180. -/
def appChatsStep (username : String) (acc : List (String × ChatEntry))
    (room : String × List Message) : List (String × ChatEntry) :=
  if jsIncludes room.1 username then
    match room.2.getLast? with
    | none => acc
    | some lastMessage =>
      match (roomParticipants room.1).find? (fun u => u != username) with
      | none => acc
      | some otherUser =>
        objSet acc otherUser
          { lastMessage := if lastMessage.text != "" then lastMessage.text else "Media"
            timestamp := lastMessage.timestamp
            unread := 0 }
  else acc

/-- The `GET /chats` handler of `src/app.js` lines 153-185: build the
`chatList` object over all room keys (the `lastSeen` file is read but never
used by this handler). -/
def appChats (username : String) (st : Store) : List (String × ChatEntry) :=
  st.foldl (appChatsStep username) []

/-- Stable comparator sort, modelling V8's stable `Array.prototype.sort`:
insert each element after every already-placed element it does not strictly
precede (`before x y` = the comparator orders `x` strictly before `y`). -/
def insertBy {α : Type} (before : α → α → Bool) (x : α) : List α → List α
  | [] => [x]
  | y :: ys => if before x y then x :: y :: ys else y :: insertBy before x ys

/-- Stable sort by a strict "comes before" comparator (see `insertBy`). -/
def sortBy {α : Type} (before : α → α → Bool) (l : List α) : List α :=
  l.foldl (fun acc x => insertBy before x acc) []

/-- The unread counter of `getUserChatList` in `src/unnamed/part_001` lines
213-215: among the given (already visibility-filtered) messages, count those
not authored by the owner and not read by the owner. -/
def unreadOf (username : String) (msgs : List Message) : Nat :=
  (msgs.filter (fun m => m.fromId != username && !(m.readBy.contains username))).length

/-- One entry of the chat list built by `getUserChatList` in
`src/unnamed/part_001` lines 217-228. -/
structure ChatSummary where
  username : String
  lastText : String
  lastFrom : String
  lastTimestamp : Nat
  unreadCount : Nat
  roomId : String
  lastSeen : Option Nat
  status : String
  deriving Repr, DecidableEq

/-- One iteration of the room loop of `getUserChatList`
(`src/unnamed/part_001` lines 198-233).  `lastSeenF` is the `last_seen.json`
object and `active` the usernames present in the `activeUsers` map. -/
def chatListStep (username : String) (lastSeenF : List (String × Nat))
    (active : List String) (acc : List ChatSummary)
    (room : String × List Message) : List ChatSummary :=
  if jsIncludes room.1 username then
    if room.2.isEmpty then acc
    else
      let visible := joinFilter username room.2
      match visible.getLast? with
      | none => acc
      | some lastMessage =>
        match (roomParticipants room.1).find? (fun u => u != username) with
        | none => acc
        | some otherUser =>
          acc ++ [{ username := otherUser
                    lastText := if lastMessage.text != "" then lastMessage.text else "Media"
                    lastFrom := lastMessage.fromId
                    lastTimestamp := lastMessage.timestamp
                    unreadCount := unreadOf username visible
                    roomId := room.1
                    lastSeen := objGet lastSeenF otherUser
                    status := if active.contains otherUser then "online" else "offline" }]
  else acc

/-- `getUserChatList` from `src/unnamed/part_001` lines 190-243: collect an
entry per room whose key contains the owner, then sort by last-message
timestamp descending (V8 `Array.prototype.sort` is stable). -/
def getUserChatList (username : String) (messages : Store)
    (lastSeenF : List (String × Nat)) (active : List String) : List ChatSummary :=
  sortBy (fun a b => b.lastTimestamp < a.lastTimestamp)
    (messages.foldl (chatListStep username lastSeenF active) [])

/-- Modelled from the spec: the `unreadCount` invariant of §3 — "the number
of messages in the conversation authored by `peerIdentity`, not yet in that
message's `readBy`, and not deleted-for-owner".  Used only as the comparison
point for the refinement statement about `unreadOf`. -/
def specUnreadCount (peer owner : String) (msgs : List Message) : Nat :=
  (msgs.filter (fun m =>
    m.fromId == peer && !(m.readBy.contains owner) && !(m.deletedFor.contains owner))).length

/-- One value of the `activeUsers` map (`src/app.js` lines 219-223). -/
structure ActiveEntry where
  socketId : String
  lastSeenA : Nat
  status : String
  deriving Repr, DecidableEq

/-- The presence-relevant server state: the volatile `activeUsers` map and
the persisted `last_seen.json` object. -/
structure PresenceState where
  active : List (String × ActiveEntry)
  lastSeenFile : List (String × Nat)
  deriving Repr, DecidableEq

/-- The connection handler's presence effect (`src/app.js` lines 215-230):
`activeUsers.set(username, {socketId, lastSeen: Date.now(), status:'online'})`
— one entry per username, a second connection overwrites the first. -/
def connectHandler (username socketId : String) (now : Nat)
    (st : PresenceState) : PresenceState :=
  { st with active := objSet st.active username ⟨socketId, now, "online"⟩ }

/-- The `disconnect` handler (`src/app.js` lines 510-527): write
`lastSeen[username] = Date.now()` and `activeUsers.delete(username)` —
unconditionally, whichever socket of the user closed. -/
def disconnectHandler (username : String) (now : Nat)
    (st : PresenceState) : PresenceState :=
  { active := objDelete st.active username
    lastSeenFile := objSet st.lastSeenFile username now }

/-- How the code decides whether an identity is online:
`activeUsers.has(username)` (e.g. `getUserStatus` in `src/unnamed/part_008`
lines 150-152, the `status` field of `getUserChatList`). -/
def isOnlineCode (st : PresenceState) (username : String) : Bool :=
  (objGet st.active username).isSome

/-- A presence event of the outside world: a socket opens or closes. -/
inductive PEvent : Type
  | connect (u s : String) (now : Nat)
  | disconnect (u s : String) (now : Nat)
  deriving Repr, DecidableEq

/-- Ground truth: the set of live connection handles after a sequence of
socket open/close events (independent of what the code tracks). -/
def liveHandles (evs : List PEvent) : List (String × String) :=
  evs.foldl (fun acc ev =>
    match ev with
    | PEvent.connect u s _ => acc ++ [(u, s)]
    | PEvent.disconnect u s _ => acc.filter (fun p => !(p == (u, s)))) []

/-- Run the code's presence handlers over a socket event trace (the
`disconnect` handler never sees which socket closed). -/
def runPresence (evs : List PEvent) (st : PresenceState) : PresenceState :=
  evs.foldl (fun st ev =>
    match ev with
    | PEvent.connect u s now => connectHandler u s now st
    | PEvent.disconnect u _ now => disconnectHandler u now st) st

/-- A single durable JSON file as seen by `writeJSON` (`src/utils/fileDB.js`
lines 76-108): the persisted content and the `.tmp` sibling. -/
structure FileFS (α : Type) where
  main : α
  temp : Option α
  deriving Repr, DecidableEq

/-- `writeJSON` with failure injection: write the serialized data to
`filePath + '.tmp'`, then `renameSync` it over the file (atomic).  On a
failure at either step the temp file is unlinked and an error is thrown
(`false` result); the persisted content is untouched because only the
rename publishes it. -/
def writeJSONRun {α : Type} (failTemp failRename : Bool) (newData : α)
    (fs : FileFS α) : FileFS α × Bool :=
  if failTemp then ({ fs with temp := none }, false)
  else
    let fs1 : FileFS α := { fs with temp := some newData }
    if failRename then ({ fs1 with temp := none }, false)
    else ({ main := newData, temp := none }, true)

/-- One entry of a user's chat list in `chats.json`
(`src/unnamed/part_008` lines 211-220). -/
structure Chat8 where
  username : String
  lastText : String
  lastFrom : String
  lastTimestamp : Nat
  unreadCount : Nat
  status : String
  deriving Repr, DecidableEq

/-- JS `Array.prototype.find` followed by in-place mutation: update the
first entry with the given username. -/
def updFirstChat (otherUser : String) (f : Chat8 → Chat8) : List Chat8 → List Chat8
  | [] => []
  | c :: rest =>
      if c.username == otherUser then f c :: rest
      else c :: updFirstChat otherUser f rest

/-- `updateUserChatList` from `src/unnamed/part_008` lines 191-233: upsert
the `(username, otherUser)` summary — update `lastMessage` and increment
`unreadCount` when the message is from the peer — then sort the owner's
list by last-message timestamp descending and write it back. -/
def updateUserChatList8 (username otherUser : String) (m : Message)
    (active : List String) (chats : List (String × List Chat8)) :
    List (String × List Chat8) :=
  let userChats := (objGet chats username).getD []
  let updated :=
    if (userChats.find? (fun c => c.username == otherUser)).isSome then
      updFirstChat otherUser (fun c =>
        { c with lastText := m.text, lastFrom := m.fromId, lastTimestamp := m.timestamp,
                 unreadCount := if m.fromId != username then c.unreadCount + 1
                                else c.unreadCount }) userChats
    else
      userChats ++ [{ username := otherUser
                      lastText := m.text
                      lastFrom := m.fromId
                      lastTimestamp := m.timestamp
                      unreadCount := if m.fromId != username then 1 else 0
                      status := if active.contains otherUser then "online" else "offline" }]
  objSet chats username (sortBy (fun a b => b.lastTimestamp < a.lastTimestamp) updated)

/-- The durable and emitted state touched by the `dm:message` handler of
`src/unnamed/part_008`: the messages store, the `chats.json` summaries, and
the events already emitted to sockets. -/
structure BrokerState where
  messages : Store
  chats : List (String × List Chat8)
  delivered : List (String × Message)
  notified : List (String × Message)
  deriving Repr, DecidableEq

/-- The `dm:message` handler of `src/unnamed/part_008` lines 347-406 with
write-failure injection.  The handler performs, in order: validation,
`saveMessage` (messages write, step 1), `io.to(roomId).emit('dm:message')`
(delivery), `updateUserChatList(username, to)` (chats write, step 2),
`updateUserChatList(to, username)` (chats write, step 3), then the
`chat:new_message` notification.  `failAt = some k` makes write `k` throw;
the surrounding `try`/`catch` then reports failure, keeping every mutation
already committed.  `mid` stands for `generateId('msg')` (the id generator
lives in a fileDB variant outside `src/utils/fileDB.js`); its value does not
affect this handler's control flow. -/
def sendHandler8 (failAt : Option Nat) (username : String) (inp : SendInput)
    (mid : String) (now : Nat) (active : List String) (recipientOnline : Bool)
    (st : BrokerState) : BrokerState × Bool :=
  if !(sendOk inp) then (st, false)
  else
    let roomId := getRoomId username inp.toId
    let msg : Message :=
      { id := mid, fromId := username, toId := inp.toId
        text := jsOrEmpty inp.text, media := jsOrNull inp.media
        timestamp := now, readBy := [username], deletedFor := [] }
    if failAt == some 1 then (st, false)
    else
      let newRoom := ((objGet st.messages roomId).getD []) ++ [msg]
      let st1 := { st with messages := objSet st.messages roomId newRoom }
      let st2 := { st1 with delivered := st1.delivered ++ [(roomId, msg)] }
      if failAt == some 2 then (st2, false)
      else
        let st3 := { st2 with chats := updateUserChatList8 username inp.toId msg active st2.chats }
        if failAt == some 3 then (st3, false)
        else
          let st4 := { st3 with chats := updateUserChatList8 inp.toId username msg active st3.chats }
          let st5 := if recipientOnline
                     then { st4 with notified := st4.notified ++ [(inp.toId, msg)] }
                     else st4
          (st5, true)

/-- The character class of `validateUsername` (`src/utils/validation.js`
line 21): `/^[a-zA-Z0-9_]+$/`. -/
def usernameCharOk (c : Char) : Bool :=
  c.isAlpha || c.isDigit || c == '_'

/-- `validateUsername(username).isValid` from `src/utils/validation.js`
lines 1-29: non-empty, length between 3 and 20, charset `[a-zA-Z0-9_]`. -/
def validateUsernameOk (u : String) : Bool :=
  u != "" && decide (3 ≤ u.length) && decide (u.length ≤ 20) && u.data.all usernameCharOk

/-- One `dm:message` invocation: the sender, the payload, and the
environment (`Date.now()` value and random id suffix) at the time of the
call. -/
structure SendCall where
  user : String
  inp : SendInput
  now : Nat
  suffix : String
  deriving Repr, DecidableEq

/-- A sequence of `dm:message` handler invocations in call order. -/
def runSends (calls : List SendCall) (st : Store) : Store :=
  calls.foldl (fun st c => (sendHandler c.user c.inp c.now c.suffix st).1) st

/-! ## Helper lemmas about the JS-object model -/

theorem objGet_objSet_self {α : Type} (st : List (String × α)) (k : String) (v : α) :
    objGet (objSet st k v) k = some v := by
  induction st with
  | nil => simp [objSet, objGet, List.find?]
  | cons p rest ih =>
    obtain ⟨k', v'⟩ := p
    by_cases h : k' = k
    · subst h
      simp [objSet, objGet, List.find?]
    · have hbeq : (k' == k) = false := by simp [h]
      simp only [objSet, hbeq, if_false]
      simpa [objGet, List.find?, hbeq] using ih

theorem objGet_objSet_ne {α : Type} (st : List (String × α)) (k k' : String) (v : α)
    (h : k' ≠ k) : objGet (objSet st k v) k' = objGet st k' := by
  have hkk : (k == k') = false := by simp [Ne.symm h]
  induction st with
  | nil => simp [objSet, objGet, List.find?, hkk]
  | cons p rest ih =>
    obtain ⟨ka, va⟩ := p
    by_cases hk : ka = k
    · subst hk
      simp [objSet, objGet, List.find?, hkk]
    · have hbeq : (ka == k) = false := by simp [hk]
      by_cases hk2 : ka = k'
      · subst hk2
        simp [objSet, objGet, List.find?, hbeq]
      · have h2 : (ka == k') = false := by simp [hk2]
        simp only [objSet, hbeq, if_false]
        simpa [objGet, List.find?, h2] using ih

theorem objGet_objDelete_self {α : Type} (st : List (String × α)) (k : String) :
    objGet (objDelete st k) k = none := by
  induction st with
  | nil => simp [objDelete, objGet, List.find?]
  | cons p rest ih =>
    obtain ⟨ka, va⟩ := p
    by_cases hk : ka = k
    · subst hk
      simp [objDelete, objGet, List.find?]
    · have hbeq : (ka == k) = false := by simp [hk]
      simp [objDelete, objGet, List.find?, hbeq]

/-! ## Helper lemmas about the lexicographic order and `getRoomId` -/

theorem char_toNat_inj (a b : Char) (h : a.toNat = b.toNat) : a = b := by
  have := congrArg Char.ofNat h
  rwa [Char.ofNat_toNat, Char.ofNat_toNat] at this

theorem lexLe_total (as : List Char) : ∀ bs, lexLe as bs = true ∨ lexLe bs as = true := by
  induction as with
  | nil => intro bs; left; rfl
  | cons a as ih =>
    intro bs
    cases bs with
    | nil => right; rfl
    | cons b bs =>
      rcases Nat.lt_trichotomy a.toNat b.toNat with h | h | h
      · left; simp [lexLe, h]
      · rcases ih bs with h2 | h2
        · left; simp [lexLe, h, h2]
        · right; simp [lexLe, h.symm, h2]
      · right; simp [lexLe, h]

theorem lexLe_antisymm (as : List Char) :
    ∀ bs, lexLe as bs = true → lexLe bs as = true → as = bs := by
  induction as with
  | nil =>
    intro bs h1 h2
    cases bs with
    | nil => rfl
    | cons b bs => simp [lexLe] at h2
  | cons a as ih =>
    intro bs h1 h2
    cases bs with
    | nil => simp [lexLe] at h1
    | cons b bs =>
      rcases Nat.lt_trichotomy a.toNat b.toNat with h | h | h
      · simp [lexLe, h, Nat.lt_asymm h] at h2
      · have hc : a = b := char_toNat_inj a b h
        subst hc
        simp only [lexLe, Nat.lt_irrefl, if_false] at h1 h2
        rw [ih bs h1 h2]
      · simp [lexLe, h, Nat.lt_asymm h] at h1

theorem strLe_total (a b : String) : strLe a b = true ∨ strLe b a = true :=
  lexLe_total a.data b.data

theorem strLe_antisymm (a b : String) (h1 : strLe a b = true) (h2 : strLe b a = true) :
    a = b :=
  String.ext (lexLe_antisymm a.data b.data h1 h2)

theorem getRoomId_comm (a b : String) : getRoomId a b = getRoomId b a := by
  unfold getRoomId
  by_cases h1 : strLe a b = true
  · by_cases h2 : strLe b a = true
    · rw [strLe_antisymm a b h1 h2]
    · rw [if_pos h1, if_neg h2]
  · rcases strLe_total a b with h | h
    · exact absurd h h1
    · rw [if_neg h1, if_pos h]

theorem sendHandler_ok (username : String) (inp : SendInput) (now : Nat) (suffix : String)
    (st : Store) (h : sendOk inp = true) :
    sendHandler username inp now suffix st =
      (objSet st (getRoomId username inp.toId)
        (((objGet st (getRoomId username inp.toId)).getD []) ++
          [mkMessage username inp now suffix]),
       some (mkMessage username inp now suffix)) := by
  simp [sendHandler, h]

/-- `mkMessage` always starts with an empty `deletedFor`, so it survives the
`dm:join` filter of every viewer. -/
theorem mkMessage_deletedFor (username : String) (inp : SendInput) (now : Nat)
    (suffix : String) : (mkMessage username inp now suffix).deletedFor = [] := rfl

theorem mem_joinFilter (viewer : String) (msgs : List Message) (m : Message) :
    m ∈ joinFilter viewer msgs ↔ m ∈ msgs ∧ ¬ (viewer ∈ m.deletedFor) := by
  simp [joinFilter, List.mem_filter]

/-! ## C1 -/

/-- C1: two sends on the same conversation — `send(A→B)` and `send(B→A)` —
are serialised by the event loop (each `dm:message` handler is synchronous,
so it is one atomic step); running them in call order loses neither message:
afterwards the stored room list is the old list followed by both messages in
call order, its length has grown by exactly 2, and both messages appear in
the `dm:join` listing of every viewer. -/
theorem C1_concurrent_sends_serialized (a b : String) (i1 i2 : SendInput)
    (n1 n2 : Nat) (s1 s2 : String) (st : Store)
    (h1 : sendOk i1 = true) (h2 : sendOk i2 = true)
    (hto1 : i1.toId = b) (hto2 : i2.toId = a) :
    objGet ((sendHandler b i2 n2 s2 ((sendHandler a i1 n1 s1 st).1)).1) (getRoomId a b) =
      some (((objGet st (getRoomId a b)).getD []) ++
        [mkMessage a i1 n1 s1, mkMessage b i2 n2 s2]) ∧
    ((objGet ((sendHandler b i2 n2 s2 ((sendHandler a i1 n1 s1 st).1)).1)
        (getRoomId a b)).getD []).length =
      ((objGet st (getRoomId a b)).getD []).length + 2 ∧
    ∀ viewer,
      mkMessage a i1 n1 s1 ∈
        joinFilter viewer ((objGet ((sendHandler b i2 n2 s2
          ((sendHandler a i1 n1 s1 st).1)).1) (getRoomId a b)).getD []) ∧
      mkMessage b i2 n2 s2 ∈
        joinFilter viewer ((objGet ((sendHandler b i2 n2 s2
          ((sendHandler a i1 n1 s1 st).1)).1) (getRoomId a b)).getD []) := by
  have e1 := sendHandler_ok a i1 n1 s1 st h1
  rw [hto1] at e1
  have e2 := sendHandler_ok b i2 n2 s2 (sendHandler a i1 n1 s1 st).1 h2
  rw [hto2, getRoomId_comm b a] at e2
  have hkey : objGet ((sendHandler b i2 n2 s2 ((sendHandler a i1 n1 s1 st).1)).1)
      (getRoomId a b) =
      some (((objGet st (getRoomId a b)).getD []) ++
        [mkMessage a i1 n1 s1, mkMessage b i2 n2 s2]) := by
    rw [e2, e1]
    simp only []
    rw [objGet_objSet_self, objGet_objSet_self]
    simp
  refine ⟨hkey, ?_, ?_⟩
  · rw [hkey]
    simp
  · intro viewer
    rw [hkey]
    constructor
    · rw [mem_joinFilter]
      refine ⟨by simp, ?_⟩
      rw [mkMessage_deletedFor]
      simp
    · rw [mem_joinFilter]
      refine ⟨by simp, ?_⟩
      rw [mkMessage_deletedFor]
      simp

/-- C1 witness: a concrete instance — `alice` sends to `bob`, `bob` sends to
`alice`, starting from the empty store; both messages end up stored in call
order. -/
theorem C1_concurrent_sends_serialized_witness :
    objGet ((sendHandler "bob" ⟨"alice", some "yo", none⟩ 2 "q"
        ((sendHandler "alice" ⟨"bob", some "hi", none⟩ 1 "p" ([] : Store)).1)).1)
      (getRoomId "alice" "bob") =
      some (((objGet ([] : Store) (getRoomId "alice" "bob")).getD []) ++
        [mkMessage "alice" ⟨"bob", some "hi", none⟩ 1 "p",
         mkMessage "bob" ⟨"alice", some "yo", none⟩ 2 "q"]) :=
  (C1_concurrent_sends_serialized "alice" "bob" ⟨"bob", some "hi", none⟩
    ⟨"alice", some "yo", none⟩ 1 2 "p" "q" [] (by decide) (by decide) rfl rfl).1

/-! ## C2 -/

theorem runSends_objGet (K : String) (calls : List SendCall) (st : Store)
    (h : ∀ c ∈ calls, sendOk c.inp = true ∧ getRoomId c.user c.inp.toId = K) :
    (objGet (runSends calls st) K).getD [] =
      ((objGet st K).getD []) ++
        calls.map (fun c => mkMessage c.user c.inp c.now c.suffix) := by
  induction calls generalizing st with
  | nil => simp [runSends]
  | cons c cs ih =>
    obtain ⟨hok, hkey⟩ := h c (by simp)
    have e := sendHandler_ok c.user c.inp c.now c.suffix st hok
    rw [hkey] at e
    have hstep : runSends (c :: cs) st =
        runSends cs ((sendHandler c.user c.inp c.now c.suffix st).1) := by
      simp [runSends]
    rw [hstep, e]
    have ih2 := ih (objSet st K (((objGet st K).getD []) ++
      [mkMessage c.user c.inp c.now c.suffix])) (fun x hx => h x (by simp [hx]))
    simpa [objGet_objSet_self, List.append_assoc] using ih2

/-- New messages have empty `deletedFor`, so the `dm:join` filter keeps all
of them, for every viewer. -/
theorem joinFilter_map_mkMessage (viewer : String) (calls : List SendCall) :
    joinFilter viewer (calls.map (fun c => mkMessage c.user c.inp c.now c.suffix)) =
      calls.map (fun c => mkMessage c.user c.inp c.now c.suffix) := by
  rw [joinFilter, List.filter_eq_self]
  intro m hm
  obtain ⟨c, _, rfl⟩ := List.mem_map.mp hm
  rw [mkMessage_deletedFor]
  simp

/-- C2 counterexample: two sends in the same millisecond (`Date.now() = 100`
for both) whose random suffixes happen to be `"zz"` then `"aa"` are stored
in call order, but the id of the second message is lexicographically
*smaller* than the id of the first — stored ids are not strictly increasing
in append order. -/
theorem C2_ids_not_strictly_increasing :
    (objGet (runSends
        [⟨"alice", ⟨"bob", some "one", none⟩, 100, "zz"⟩,
         ⟨"alice", ⟨"bob", some "two", none⟩, 100, "aa"⟩] ([] : Store))
      (getRoomId "alice" "bob")).getD []
      = [mkMessage "alice" ⟨"bob", some "one", none⟩ 100 "zz",
         mkMessage "alice" ⟨"bob", some "two", none⟩ 100 "aa"] ∧
    strLt (mkMessage "alice" ⟨"bob", some "one", none⟩ 100 "zz").id
      (mkMessage "alice" ⟨"bob", some "two", none⟩ 100 "aa").id = false := by
  constructor
  · decide
  · decide

/-- C2 (amended): within one conversation, `list` returns the stored
messages in exactly call (append) order — the room list after any sequence
of accepted sends on the conversation key is the old list followed by the
new messages in call order, and the `dm:join` view of any viewer lists them
in that same order; strict monotonicity of the assigned ids is *not*
guaranteed (see the counterexample: same-millisecond sends can be assigned
lexicographically decreasing or equal ids). -/
theorem C2_list_in_call_order (K : String) (calls : List SendCall) (st : Store)
    (h : ∀ c ∈ calls, sendOk c.inp = true ∧ getRoomId c.user c.inp.toId = K) :
    (objGet (runSends calls st) K).getD [] =
      ((objGet st K).getD []) ++
        calls.map (fun c => mkMessage c.user c.inp c.now c.suffix) ∧
    ∀ viewer, joinFilter viewer ((objGet (runSends calls st) K).getD []) =
      joinFilter viewer ((objGet st K).getD []) ++
        calls.map (fun c => mkMessage c.user c.inp c.now c.suffix) := by
  have h1 := runSends_objGet K calls st h
  refine ⟨h1, fun viewer => ?_⟩
  rw [h1, joinFilter, List.filter_append, ← joinFilter, ← joinFilter,
    joinFilter_map_mkMessage]

/-- C2 witness: concrete instance of the amended statement — two sends from
`alice` to `bob` on the empty store are listed in call order. -/
theorem C2_list_in_call_order_witness :
    (objGet (runSends
        [⟨"alice", ⟨"bob", some "one", none⟩, 100, "ab"⟩,
         ⟨"bob", ⟨"alice", some "two", none⟩, 101, "cd"⟩] ([] : Store))
      (getRoomId "alice" "bob")).getD []
      = ((objGet ([] : Store) (getRoomId "alice" "bob")).getD []) ++
        [mkMessage "alice" ⟨"bob", some "one", none⟩ 100 "ab",
         mkMessage "bob" ⟨"alice", some "two", none⟩ 101 "cd"] :=
  (C2_list_in_call_order (getRoomId "alice" "bob")
    [⟨"alice", ⟨"bob", some "one", none⟩, 100, "ab"⟩,
     ⟨"bob", ⟨"alice", some "two", none⟩, 101, "cd"⟩] []
    (by intro c hc; fin_cases hc <;> exact ⟨by decide, by decide⟩)).1

/-! ## C3 -/

theorem deleteScan_no_match (u mid : String) (f : Bool) (l : List Message)
    (h : ∀ x ∈ l, x.id ≠ mid) : deleteScan u mid f l = (l, false) := by
  induction l with
  | nil => rfl
  | cons x rest ih =>
    have hx : (x.id == mid) = false := by simp [h x (by simp)]
    have ih2 := ih (fun y hy => h y (by simp [hy]))
    rw [deleteScan.eq_def]
    simp only [hx, Bool.false_eq_true, if_false, ih2]

theorem deleteScan_prepend (u mid : String) (f : Bool) (pre l : List Message)
    (hpre : ∀ x ∈ pre, x.id ≠ mid) :
    deleteScan u mid f (pre ++ l) =
      (pre ++ (deleteScan u mid f l).1, (deleteScan u mid f l).2) := by
  induction pre with
  | nil => simp
  | cons x rest ih =>
    have hx : (x.id == mid) = false := by simp [hpre x (by simp)]
    have ih2 := ih (fun y hy => hpre y (by simp [hy]))
    rw [List.cons_append, deleteScan.eq_def]
    simp only [hx, Bool.false_eq_true, if_false, ih2, List.cons_append]

theorem deleteScan_hard (u mid : String) (m : Message) (post : List Message)
    (hm : m.id = mid) (hfrom : m.fromId = u) (hpost : ∀ x ∈ post, x.id ≠ mid) :
    deleteScan u mid true (m :: post) = (post, true) := by
  have hbeq : (m.id == mid) = true := by simp [hm]
  have hfbeq : (true && (m.fromId == u)) = true := by simp [hfrom]
  cases post with
  | nil =>
    rw [deleteScan.eq_def]
    simp [hbeq, hfbeq]
  | cons skipped rest2 =>
    have h2 : deleteScan u mid true rest2 = (rest2, false) :=
      deleteScan_no_match u mid true rest2 (fun y hy => hpost y (by simp [hy]))
    rw [deleteScan.eq_def]
    simp [hbeq, hfbeq, h2]

theorem deleteScan_soft (u mid : String) (f : Bool) (m : Message) (post : List Message)
    (hm : m.id = mid) (hcond : (f && (m.fromId == u)) = false)
    (hnew : ¬ (u ∈ m.deletedFor)) (hpost : ∀ x ∈ post, x.id ≠ mid) :
    deleteScan u mid f (m :: post) =
      ({ m with deletedFor := m.deletedFor ++ [u] } :: post, true) := by
  have hbeq : (m.id == mid) = true := by simp [hm]
  have h2 : deleteScan u mid f post = (post, false) :=
    deleteScan_no_match u mid f post hpost
  rw [deleteScan.eq_def]
  simp [hbeq, hcond, hnew, h2]

/-- C3: the `dm:delete` policy.  For a room whose list contains exactly one
message `m` with the target id: (a) `forEveryone = true` by the author
removes `m` from the stored list entirely, so afterwards no viewer's
`dm:join` listing contains a message with that id; (b) `forEveryone = true`
by a non-author silently downgrades to a soft delete that appends only the
requester to `m.deletedFor`, so the message disappears from the requester's
listing but remains in the listing of every other viewer it was visible to;
and (c) the `dm:join` filtering keeps exactly the messages whose
`deletedFor` does not contain the viewer. -/
theorem C3_delete_forEveryone_policy (req K mid : String) (st : Store)
    (pre post : List Message) (m : Message)
    (hroom : objGet st K = some (pre ++ m :: post))
    (hm : m.id = mid)
    (hpre : ∀ x ∈ pre, x.id ≠ mid) (hpost : ∀ x ∈ post, x.id ≠ mid) :
    (m.fromId = req →
      deleteHandler req K mid true st =
        (objSet st K (pre ++ post), DeleteOutcome.deleted) ∧
      ∀ viewer, ∀ x ∈ joinFilter viewer (pre ++ post), x.id ≠ mid) ∧
    (m.fromId ≠ req → ¬ (req ∈ m.deletedFor) →
      deleteHandler req K mid true st =
        (objSet st K (pre ++ { m with deletedFor := m.deletedFor ++ [req] } :: post),
         DeleteOutcome.deleted) ∧
      (∀ x ∈ joinFilter req (pre ++ { m with deletedFor := m.deletedFor ++ [req] } :: post),
        x.id ≠ mid) ∧
      (∀ viewer, viewer ≠ req → ¬ (viewer ∈ m.deletedFor) →
        { m with deletedFor := m.deletedFor ++ [req] } ∈
          joinFilter viewer (pre ++ { m with deletedFor := m.deletedFor ++ [req] } :: post))) ∧
    (∀ viewer (msgs : List Message) (x : Message),
      x ∈ joinFilter viewer msgs ↔ x ∈ msgs ∧ ¬ (viewer ∈ x.deletedFor)) := by
  refine ⟨?_, ?_, fun viewer msgs x => mem_joinFilter viewer msgs x⟩
  · intro hfrom
    have hscan : deleteScan req mid true (pre ++ m :: post) = (pre ++ post, true) := by
      rw [deleteScan_prepend req mid true pre (m :: post) hpre,
        deleteScan_hard req mid m post hm hfrom hpost]
    constructor
    · simp only [deleteHandler, hroom, hscan, if_true]
    · intro viewer x hx
      rcases (mem_joinFilter viewer (pre ++ post) x).mp hx with ⟨hmem, _⟩
      rcases List.mem_append.mp hmem with h | h
      · exact hpre x h
      · exact hpost x h
  · intro hfrom hnew
    have hcond : (true && (m.fromId == req)) = false := by simp [hfrom]
    have hscan : deleteScan req mid true (pre ++ m :: post) =
        (pre ++ { m with deletedFor := m.deletedFor ++ [req] } :: post, true) := by
      rw [deleteScan_prepend req mid true pre (m :: post) hpre,
        deleteScan_soft req mid true m post hm hcond hnew hpost]
    refine ⟨by simp only [deleteHandler, hroom, hscan, if_true], ?_, ?_⟩
    · intro x hx
      rcases (mem_joinFilter req _ x).mp hx with ⟨hmem, hdel⟩
      rcases List.mem_append.mp hmem with h | h
      · exact hpre x h
      · rcases List.mem_cons.mp h with rfl | h
        · exact absurd (by simp) hdel
        · exact hpost x h
    · intro viewer hvr hvm
      rw [mem_joinFilter]
      refine ⟨by simp, ?_⟩
      simp only [List.mem_append, List.mem_singleton]
      rintro (h | rfl)
      · exact hvm h
      · exact hvr rfl

/-- C3 witness: concrete author hard delete — `a` deletes their only message
for everyone; the stored room list becomes empty. -/
theorem C3_delete_forEveryone_policy_witness :
    deleteHandler "a" "dm:a::b" "7" true
        [("dm:a::b", [⟨"7", "a", "b", "hi", none, 1, ["a"], []⟩])] =
      (objSet [("dm:a::b", [⟨"7", "a", "b", "hi", none, 1, ["a"], []⟩])]
        "dm:a::b" ([] ++ []), DeleteOutcome.deleted) :=
  ((C3_delete_forEveryone_policy "a" "dm:a::b" "7"
      [("dm:a::b", [⟨"7", "a", "b", "hi", none, 1, ["a"], []⟩])]
      [] [] ⟨"7", "a", "b", "hi", none, 1, ["a"], []⟩
      (by decide) rfl (by simp) (by simp)).1 rfl).1

/-! ## C4 -/

/-- C4 counterexample: the `GET /chats` handler of `src/app.js` reports
`unread = 0` unconditionally (the literal `unread: 0` at line 173).  For a
store holding one message from `a` to `b` that `b` has not read, `b`'s chat
list entry for `a` carries `unread = 0` although the invariant count
(messages authored by the peer, unread by the owner, not deleted for the
owner) is `1`. -/
theorem C4_app_chats_unread_always_zero :
    appChats "b" [("dm:a::b", [⟨"m1", "a", "b", "hi", none, 5, ["a"], []⟩])] =
      [("a", ⟨"hi", 5, 0⟩)] ∧
    specUnreadCount "a" "b" [⟨"m1", "a", "b", "hi", none, 5, ["a"], []⟩] = 1 := by
  constructor
  · decide
  · decide

/-- C4 (amended): the recomputed `unreadCount` of `getUserChatList`
(`src/unnamed/part_001`) satisfies the invariant: for a two-party
conversation it equals the number of messages authored by the peer, not yet
read by the owner and not deleted for the owner (and, being a `Nat`, it is
never negative); once the owner has read every message it is `0`.  The
`GET /chats` handler of `src/app.js` instead always reports `unread = 0`
(see the counterexample). -/
theorem C4_unread_recompute_matches_invariant (owner peer : String)
    (msgs : List Message) (hne : peer ≠ owner)
    (hp : ∀ m ∈ msgs, m.fromId = peer ∨ m.fromId = owner) :
    unreadOf owner (joinFilter owner msgs) = specUnreadCount peer owner msgs ∧
    ((∀ m ∈ msgs, owner ∈ m.readBy) → unreadOf owner (joinFilter owner msgs) = 0) ∧
    ((getUserChatList "b" [("dm:a::b",
        [⟨"1", "a", "b", "hi", none, 1, ["a"], []⟩,
         ⟨"2", "a", "b", "yo", none, 2, ["a"], []⟩])] [] []).map
      (fun c => (c.username, c.unreadCount)) = [("a", 2)]) ∧
    ((getUserChatList "b" ((markReadHandler "b" "2" "dm:a::b"
        ((markReadHandler "b" "1" "dm:a::b" [("dm:a::b",
          [⟨"1", "a", "b", "hi", none, 1, ["a"], []⟩,
           ⟨"2", "a", "b", "yo", none, 2, ["a"], []⟩])]).1)).1) [] []).map
      (fun c => (c.username, c.unreadCount)) = [("a", 0)]) := by
  have key : unreadOf owner (joinFilter owner msgs) = specUnreadCount peer owner msgs := by
    unfold unreadOf joinFilter specUnreadCount
    rw [List.filter_filter]
    congr 1
    apply List.filter_congr
    intro m hm
    have hfrom : (m.fromId != owner) = (m.fromId == peer) := by
      rcases hp m hm with h | h
      · simp [h, hne, Ne.symm hne]
      · simp [h, Ne.symm hne]
    rw [hfrom, Bool.and_assoc]
  refine ⟨key, ?_, by decide, by decide⟩
  intro hread
  unfold unreadOf
  rw [List.length_eq_zero, List.filter_eq_nil_iff]
  intro m hm
  have : owner ∈ m.readBy := hread m ((mem_joinFilter owner msgs m).mp hm).1
  simp [this]

/-- C4 witness: concrete instance of the amended invariant — owner `b`,
peer `a`, one unread and one read message give a recomputed count of 1,
matching the invariant count. -/
theorem C4_unread_recompute_matches_invariant_witness :
    unreadOf "b" (joinFilter "b"
      [⟨"1", "a", "b", "hi", none, 1, ["a"], []⟩,
       ⟨"2", "a", "b", "yo", none, 2, ["a", "b"], []⟩]) =
    specUnreadCount "a" "b"
      [⟨"1", "a", "b", "hi", none, 1, ["a"], []⟩,
       ⟨"2", "a", "b", "yo", none, 2, ["a", "b"], []⟩] :=
  (C4_unread_recompute_matches_invariant "b" "a"
    [⟨"1", "a", "b", "hi", none, 1, ["a"], []⟩,
     ⟨"2", "a", "b", "yo", none, 2, ["a", "b"], []⟩]
    (by decide) (by intro m hm; fin_cases hm <;> simp)).1

/-! ## C5 -/

/-- C5 counterexample: user `u` opens two sockets (`s1`, `s2`) and then only
`s1` closes.  The set of live handles is still non-empty (`s2` is live), yet
the code's `activeUsers` map no longer has the user: the `disconnect`
handler deletes the single tracked entry unconditionally, so the identity
appears offline while it still holds a live connection — "online iff the
handle set is non-empty" is false. -/
theorem C5_two_connections_one_disconnect_goes_offline :
    liveHandles [PEvent.connect "u" "s1" 1, PEvent.connect "u" "s2" 2,
        PEvent.disconnect "u" "s1" 3] = [("u", "s2")] ∧
    isOnlineCode (runPresence [PEvent.connect "u" "s1" 1, PEvent.connect "u" "s2" 2,
        PEvent.disconnect "u" "s1" 3] ⟨[], []⟩) "u" = false := by
  constructor
  · decide
  · decide

/-- C5 (amended): `activeUsers` keeps at most one socket per identity — a
second connection overwrites the first — and the code treats an identity as
online iff the map has an entry.  Any `disconnect` event for the identity
deletes that entry (whichever socket closed) and records
`lastSeenAt = Date.now()` of that disconnect, so the recorded time is never
earlier than the disconnect call; with two simultaneous connections,
disconnecting either one already marks the identity offline. -/
theorem C5_presence_single_handle (st : PresenceState) (u s : String) (now : Nat) :
    isOnlineCode (connectHandler u s now st) u = true ∧
    isOnlineCode (disconnectHandler u now st) u = false ∧
    objGet (disconnectHandler u now st).lastSeenFile u = some now ∧
    ∀ s2 now2, objGet (connectHandler u s2 now2 (connectHandler u s now st)).active u =
      some ⟨s2, now2, "online"⟩ := by
  refine ⟨?_, ?_, ?_, fun s2 now2 => ?_⟩
  · simp [isOnlineCode, connectHandler, objGet_objSet_self]
  · simp [isOnlineCode, disconnectHandler, objGet_objDelete_self]
  · simp [disconnectHandler, objGet_objSet_self]
  · simp [connectHandler, objGet_objSet_self]

/-! ## C6 -/

/-- C6 counterexample: inject a write failure at the first
`updateUserChatList` call (write 2) of the `dm:message` handler of
`src/unnamed/part_008`.  The callback reports failure, yet the message is
already persisted in the messages store and the `dm:message` delivery to
the room was already emitted, while both chat summaries are unchanged —
a failed send *does* attempt delivery and *does* leave the message
persisted without the summaries updated. -/
theorem C6_summary_write_failure_partial_state :
    (sendHandler8 (some 2) "a" ⟨"b", some "hi", none⟩ "m1" 7 [] true
        ⟨[], [], [], []⟩).2 = false ∧
    (sendHandler8 (some 2) "a" ⟨"b", some "hi", none⟩ "m1" 7 [] true
        ⟨[], [], [], []⟩).1.messages =
      [("dm:a::b", [⟨"m1", "a", "b", "hi", none, 7, ["a"], []⟩])] ∧
    (sendHandler8 (some 2) "a" ⟨"b", some "hi", none⟩ "m1" 7 [] true
        ⟨[], [], [], []⟩).1.delivered =
      [("dm:a::b", ⟨"m1", "a", "b", "hi", none, 7, ["a"], []⟩)] ∧
    (sendHandler8 (some 2) "a" ⟨"b", some "hi", none⟩ "m1" 7 [] true
        ⟨[], [], [], []⟩).1.chats = [] := by
  refine ⟨?_, ?_, ?_, ?_⟩
  · decide
  · decide
  · decide
  · decide

/-- C6 (amended): each single `writeJSON` is all-or-nothing — the new data
is written to a `.tmp` file and atomically renamed over the persisted file,
so on any injected failure the call reports an error and the persisted
content is exactly the previous one; and a failure of the *message* write
in the part_008 send pipeline aborts the whole send with the state
untouched and no delivery attempted.  (Cross-file atomicity does not hold:
delivery precedes the summary writes — see the counterexample.) -/
theorem C6_writeJSON_all_or_nothing :
    (∀ (α : Type) (failTemp failRename : Bool) (newData : α) (fs : FileFS α),
      ((writeJSONRun failTemp failRename newData fs).2 = true ∧
        (writeJSONRun failTemp failRename newData fs).1.main = newData) ∨
      ((writeJSONRun failTemp failRename newData fs).2 = false ∧
        (writeJSONRun failTemp failRename newData fs).1.main = fs.main)) ∧
    (∀ (username : String) (inp : SendInput) (mid : String) (now : Nat)
        (active : List String) (recipientOnline : Bool) (st : BrokerState),
      sendHandler8 (some 1) username inp mid now active recipientOnline st =
        (st, false)) := by
  constructor
  · intro α failTemp failRename newData fs
    cases failTemp
    · cases failRename
      · left
        exact ⟨rfl, rfl⟩
      · right
        exact ⟨rfl, rfl⟩
    · right
      exact ⟨rfl, rfl⟩
  · intro username inp mid now active recipientOnline st
    cases h : sendOk inp <;> simp [sendHandler8, h]

/-! ## C7 -/

theorem markReadList_no_match (u mid : String) (l : List Message)
    (h : ∀ x ∈ l, x.id ≠ mid) : markReadList u mid l = (l, false) := by
  induction l with
  | nil => rfl
  | cons x rest ih =>
    have hx : (x.id == mid) = false := by simp [h x (by simp)]
    have ih2 := ih (fun y hy => h y (by simp [hy]))
    rw [markReadList.eq_def]
    simp only [hx, Bool.false_eq_true, if_false, ih2]

theorem markReadList_prepend (u mid : String) (pre l : List Message)
    (hpre : ∀ x ∈ pre, x.id ≠ mid) :
    markReadList u mid (pre ++ l) =
      (pre ++ (markReadList u mid l).1, (markReadList u mid l).2) := by
  induction pre with
  | nil => simp
  | cons x rest ih =>
    have hx : (x.id == mid) = false := by simp [hpre x (by simp)]
    have ih2 := ih (fun y hy => hpre y (by simp [hy]))
    rw [List.cons_append, markReadList.eq_def]
    simp only [hx, Bool.false_eq_true, if_false, ih2, List.cons_append]

theorem markReadList_head_new (u mid : String) (m : Message) (post : List Message)
    (hm : m.id = mid) (hnew : ¬ (u ∈ m.readBy)) :
    markReadList u mid (m :: post) =
      ({ m with readBy := m.readBy ++ [u] } :: post, true) := by
  have hbeq : (m.id == mid) = true := by simp [hm]
  rw [markReadList.eq_def]
  simp [hbeq, hnew]

theorem markReadList_unchanged (u mid : String) (l : List Message)
    (h : (markReadList u mid l).2 = false) : (markReadList u mid l).1 = l := by
  induction l with
  | nil => rfl
  | cons m rest ih =>
    by_cases hbeq : (m.id == mid) = true
    · by_cases hmem : u ∈ m.readBy
      · rw [markReadList.eq_def]
        simp [hbeq, hmem]
      · rw [markReadList.eq_def] at h
        simp [hbeq, hmem] at h
    · have hb : (m.id == mid) = false := by simpa using hbeq
      rw [markReadList.eq_def] at h ⊢
      simp only [hb, Bool.false_eq_true, if_false] at h ⊢
      rw [ih h]

theorem markReadList_idem (u mid : String) (l : List Message) :
    markReadList u mid (markReadList u mid l).1 = ((markReadList u mid l).1, false) := by
  induction l with
  | nil => rfl
  | cons m rest ih =>
    have hmid : m.id = mid ∨ ¬ m.id = mid := em _
    by_cases hbeq : (m.id == mid) = true
    · have hm : m.id = mid := by simpa using hbeq
      by_cases hmem : u ∈ m.readBy
      · have h1 : markReadList u mid (m :: rest) = (m :: rest, false) := by
          rw [markReadList.eq_def]
          simp [hbeq, hmem]
        rw [h1, h1]
      · have h1 : markReadList u mid (m :: rest) =
            ({ m with readBy := m.readBy ++ [u] } :: rest, true) :=
          markReadList_head_new u mid m rest hm hmem
        rw [h1]
        have hmem2 : u ∈ ({ m with readBy := m.readBy ++ [u] } : Message).readBy := by
          simp
        rw [markReadList.eq_def]
        simp [hm, hmem2]
    · have hb : (m.id == mid) = false := by simpa using hbeq
      rw [markReadList.eq_def]
      simp only [hb, Bool.false_eq_true, if_false]
      rw [markReadList.eq_def]
      simp only [hb, Bool.false_eq_true, if_false, ih]

/-- C7: idempotence of `message:read`.  (1) If no stored message has the
target id, the handler changes nothing and emits nothing.  (2) The first
`markRead` by a reader not yet in `readBy` appends the reader to the first
matching message's `readBy` and emits the read-receipt broadcast.
(3) Applying the list update twice is the same as applying it once, and the
second application reports no change.  (4) At the store level, a repeated
`message:read` with the same `(messageId, reader)` leaves the store exactly
as after the first call and emits no second broadcast. -/
theorem C7_markRead_idempotent (u mid : String) (msgs : List Message) :
    (((msgs.find? (fun m => m.id == mid)) = none) →
      markReadList u mid msgs = (msgs, false)) ∧
    (∀ (m : Message) (pre post : List Message), msgs = pre ++ m :: post →
      (∀ x ∈ pre, x.id ≠ mid) → m.id = mid → ¬ (u ∈ m.readBy) →
      markReadList u mid msgs =
        (pre ++ { m with readBy := m.readBy ++ [u] } :: post, true)) ∧
    (markReadList u mid (markReadList u mid msgs).1 =
      ((markReadList u mid msgs).1, false)) ∧
    (∀ (K : String) (st : Store),
      markReadHandler u mid K ((markReadHandler u mid K st).1) =
        ((markReadHandler u mid K st).1, false)) := by
  refine ⟨?_, ?_, markReadList_idem u mid msgs, ?_⟩
  · intro hnone
    apply markReadList_no_match
    intro x hx
    have := List.find?_eq_none.mp hnone x hx
    simpa using this
  · intro m pre post hsplit hpre hm hnew
    rw [hsplit, markReadList_prepend u mid pre (m :: post) hpre,
      markReadList_head_new u mid m post hm hnew]
  · intro K st
    cases hget : objGet st K with
    | none =>
      have h1 : markReadHandler u mid K st = (st, false) := by
        simp [markReadHandler, hget]
      rw [h1, h1]
    | some l =>
      by_cases hch : (markReadList u mid l).2 = true
      · have h1 : markReadHandler u mid K st =
            (objSet st K (markReadList u mid l).1, true) := by
          simp [markReadHandler, hget, hch]
        rw [h1]
        have hget2 : objGet (objSet st K (markReadList u mid l).1) K =
            some (markReadList u mid l).1 := objGet_objSet_self _ _ _
        simp [markReadHandler, hget2, markReadList_idem u mid l]
      · have hchf : (markReadList u mid l).2 = false := by simpa using hch
        have h1 : markReadHandler u mid K st = (st, false) := by
          simp [markReadHandler, hget, hchf]
        rw [h1, h1]

/-- C7 witness: reader `b` marks message `1` read — the first call appends
`b` to `readBy` and reports the broadcast. -/
theorem C7_markRead_idempotent_witness :
    markReadList "b" "1" [⟨"1", "a", "b", "hi", none, 1, ["a"], []⟩] =
      ([⟨"1", "a", "b", "hi", none, 1, ["a", "b"], []⟩], true) :=
  (C7_markRead_idempotent "b" "1" [⟨"1", "a", "b", "hi", none, 1, ["a"], []⟩]).2.1
    ⟨"1", "a", "b", "hi", none, 1, ["a"], []⟩ [] [] rfl (by simp) rfl (by decide)

/-! ## C8 -/

theorem sep_cancel (s1 : List Char) :
    ∀ (t1 : List Char) (s2 t2 : List Char), ':' ∉ s1 → ':' ∉ t1 →
      s1 ++ ':' :: ':' :: s2 = t1 ++ ':' :: ':' :: t2 → s1 = t1 ∧ s2 = t2 := by
  induction s1 with
  | nil =>
    intro t1 s2 t2 h1 h2 h
    cases t1 with
    | nil =>
      refine ⟨rfl, ?_⟩
      simpa using h
    | cons x t1 =>
      exfalso
      simp only [List.nil_append, List.cons_append, List.cons.injEq] at h
      exact h2 (by simp [h.1.symm])
  | cons a s1 ih =>
    intro t1 s2 t2 h1 h2 h
    cases t1 with
    | nil =>
      exfalso
      simp only [List.nil_append, List.cons_append, List.cons.injEq] at h
      exact h1 (by simp [h.1])
    | cons x t1 =>
      simp only [List.cons_append, List.cons.injEq] at h
      obtain ⟨hax, htail⟩ := h
      obtain ⟨he1, he2⟩ := ih t1 s2 t2 (fun hc => h1 (by simp [hc]))
        (fun hc => h2 (by simp [hc])) htail
      exact ⟨by rw [hax, he1], he2⟩

/-- Injectivity of the `dm:<x>::<y>` key format for colon-free
components. -/
theorem roomKey_inj (x1 y1 x2 y2 : String)
    (hx1 : ':' ∉ x1.data) (hy1 : ':' ∉ y1.data)
    (hx2 : ':' ∉ x2.data) (hy2 : ':' ∉ y2.data)
    (h : "dm:" ++ x1 ++ "::" ++ y1 = "dm:" ++ x2 ++ "::" ++ y2) :
    x1 = x2 ∧ y1 = y2 := by
  have hd := congrArg String.data h
  simp only [String.data_append] at hd
  simp only [List.append_assoc, List.cons_append, List.nil_append,
    List.cons.injEq, true_and] at hd
  obtain ⟨hx, hy⟩ := sep_cancel x1.data x2.data y1.data y2.data hx1 hx2 hd
  exact ⟨String.ext hx, String.ext hy⟩

/-- C8 counterexample: `getRoomId` does not reject self-pairs — there is no
`InvalidConversation` failure path anywhere in the resolver; `resolve(A,A)`
simply returns the key `dm:A::A`. -/
theorem C8_self_pair_not_rejected :
    getRoomId "alice" "alice" = "dm:alice::alice" := by decide

/-- C8 (amended): `getRoomId` is symmetric, and injective over unordered
pairs of colon-free identities (every identity passing `validateUsername`
is colon-free, since its charset is `[a-zA-Z0-9_]`); but a self-pair is
*not* rejected: `getRoomId a a` is the ordinary key `dm:a::a` — the code
has no `InvalidConversation` outcome. -/
theorem C8_resolve_symmetric_injective :
    (∀ a b : String, getRoomId a b = getRoomId b a) ∧
    (∀ u : String, validateUsernameOk u = true → ':' ∉ u.data) ∧
    (∀ a b c d : String,
      ':' ∉ a.data → ':' ∉ b.data → ':' ∉ c.data → ':' ∉ d.data →
      getRoomId a b = getRoomId c d → (a = c ∧ b = d) ∨ (a = d ∧ b = c)) ∧
    (∀ a : String, getRoomId a a = "dm:" ++ a ++ "::" ++ a) := by
  refine ⟨getRoomId_comm, ?_, ?_, ?_⟩
  · intro u hu
    intro hc
    have hall : u.data.all usernameCharOk = true := by
      unfold validateUsernameOk at hu
      simp only [Bool.and_eq_true] at hu
      exact hu.2
    have := (List.all_eq_true.mp hall) ':' hc
    simp [usernameCharOk] at this
  · intro a b c d ha hb hc hd h
    unfold getRoomId at h
    by_cases h1 : strLe a b = true
    · by_cases h2 : strLe c d = true
      · rw [if_pos h1, if_pos h2] at h
        exact Or.inl (roomKey_inj a b c d ha hb hc hd h)
      · rw [if_pos h1, if_neg h2] at h
        exact Or.inr (roomKey_inj a b d c ha hb hd hc h)
    · by_cases h2 : strLe c d = true
      · rw [if_neg h1, if_pos h2] at h
        obtain ⟨hbc, had⟩ := roomKey_inj b a c d hb ha hc hd h
        exact Or.inr ⟨had, hbc⟩
      · rw [if_neg h1, if_neg h2] at h
        obtain ⟨hbd, hac⟩ := roomKey_inj b a d c hb ha hd hc h
        exact Or.inl ⟨hac, hbd⟩
  · intro a
    unfold getRoomId
    have : strLe a a = true := by
      rcases strLe_total a a with h | h
      · exact h
      · exact h
    rw [if_pos this]

/-- C8 witness: a concrete instance of the injectivity conjunct — the keys
of the distinct valid pairs coincide only as the same unordered pair. -/
theorem C8_resolve_symmetric_injective_witness :
    ("ann" = "bob" ∧ "bob" = "ann") ∨ ("ann" = "ann" ∧ "bob" = "bob") :=
  (C8_resolve_symmetric_injective.2.2.1 "ann" "bob" "bob" "ann"
    (by decide) (by decide) (by decide) (by decide)
    (by decide))

/-! ## C9 -/

theorem jsTruthy_false_iff (o : Option String) :
    jsTruthy o = false ↔ (o = none ∨ o = some "") := by
  cases o with
  | none => simp [jsTruthy]
  | some s => simp [jsTruthy]

theorem sendOk_false_iff (inp : SendInput) :
    sendOk inp = false ↔
      (inp.toId = "" ∨ ((inp.text = none ∨ inp.text = some "") ∧
        (inp.media = none ∨ inp.media = some ""))) := by
  unfold sendOk
  rw [Bool.and_eq_false_iff, Bool.or_eq_false_iff, bne_eq_false_iff_eq,
    jsTruthy_false_iff, jsTruthy_false_iff]

/-- C9 counterexample: a self-send is accepted.  `a` sends `"hi"` to `a`
itself; the handler stores the message under the self-room key `dm:a::a`
and returns it — there is no `fromIdentity == toIdentity` rejection in the
validation guard. -/
theorem C9_self_send_accepted :
    (sendHandler "a" ⟨"a", some "hi", none⟩ 5 "q" ([] : Store)).2 =
      some (mkMessage "a" ⟨"a", some "hi", none⟩ 5 "q") ∧
    objGet (sendHandler "a" ⟨"a", some "hi", none⟩ 5 "q" ([] : Store)).1 "dm:a::a" =
      some [mkMessage "a" ⟨"a", some "hi", none⟩ 5 "q"] := by
  constructor
  · decide
  · decide

/-- C9 (amended): the `dm:message` validation rejects with
`'Invalid message data'` exactly when the recipient is absent/empty or both
`text` and `media` are absent/empty; in every other case — including
`fromIdentity == toIdentity`, which is *not* checked — it stores and
returns the message. -/
theorem C9_send_validation (username : String) (inp : SendInput) (now : Nat)
    (suffix : String) (st : Store) :
    ((sendHandler username inp now suffix st).2 = none ↔
      (inp.toId = "" ∨ ((inp.text = none ∨ inp.text = some "") ∧
        (inp.media = none ∨ inp.media = some "")))) ∧
    ((sendHandler username inp now suffix st).2 =
        some (mkMessage username inp now suffix) ↔
      ¬ (inp.toId = "" ∨ ((inp.text = none ∨ inp.text = some "") ∧
        (inp.media = none ∨ inp.media = some "")))) := by
  rw [← sendOk_false_iff]
  cases h : sendOk inp with
  | false =>
    simp [sendHandler, h]
  | true =>
    simp [sendHandler, h]

/-! ## C10 -/

/-- C10: `GET /chats` selects rooms by `roomId.includes(username)` —
substring containment.  (1) A room whose key does not contain the owner's
username as a substring never influences the output; (2)–(4) concretely,
owner `ann` is *not* a participant of room `dm:anna::bob`, yet that room's
key contains `"ann"`, so the two stores differing only in this foreign
conversation produce different `GET /chats` outputs for `ann` — `ann`'s
chat list gains an entry derived from `anna`'s conversation with `bob`. -/
theorem C10_chat_list_substring_selection :
    (∀ (owner r : String) (st : Store) (msgs : List Message),
      jsIncludes r owner = false →
      appChats owner (st ++ [(r, msgs)]) = appChats owner st) ∧
    (jsIncludes "dm:anna::bob" "ann" = true ∧
      ¬ ("ann" ∈ roomParticipants "dm:anna::bob")) ∧
    (appChats "ann" [("dm:anna::bob", [⟨"m1", "anna", "bob", "x", none, 3,
        ["anna"], []⟩])] = [("anna", ⟨"x", 3, 0⟩)]) ∧
    (appChats "ann" ([] : Store) = []) := by
  refine ⟨?_, ⟨by decide, by decide⟩, by decide, by decide⟩
  intro owner r st msgs h
  unfold appChats
  rw [List.foldl_append]
  simp [appChatsStep, h]

/-- C10 witness: a room not containing the owner's username leaves the
output unchanged — concrete instance of the first conjunct. -/
theorem C10_chat_list_substring_selection_witness :
    appChats "ann" ([("dm:anna::bob", [])] ++ [("dm:bob::carol", [])]) =
      appChats "ann" [("dm:anna::bob", [])] :=
  C10_chat_list_substring_selection.1 "ann" "dm:bob::carol"
    [("dm:anna::bob", [])] [] (by decide)

end Chatt
